import Mathlib

/-
Verification of the finance-dashboard core (src/app.py).

The embedding models the two persisted JSON documents (`user_data` and
`transaction_logs`) as insertion-ordered association lists with Python
dict read/write semantics, a pandas DataFrame as a column-name list
together with a row list, numeric balances as exact rationals, and each
fallible operation as a function returning its result together with the
error it surfaces, if any.
-/

set_option autoImplicit false

namespace FinApp

/-- One transaction row: the direction flag (the `DrCr` column value) and the
numeric `balance` column value. -/
structure Row where
  drcr : String
  balance : ℚ
deriving DecidableEq, Repr

/-- A pandas DataFrame as seen by `analyze_transactions`: the list of column
names (`data.columns`) and the ordered row sequence. Field values of rows
are only consulted on frames whose column list contains `DrCr` and
`balance`, mirroring the guard in the source. -/
structure DataFrame where
  columns : List String
  rows : List Row
deriving DecidableEq, Repr

/-- The exceptions `analyze_transactions` can raise: the explicit
`ValueError` with its message, and the `IndexError` that pandas
`.iloc[-1]` raises on an empty column. -/
inductive AnalysisError where
  | valueError (msg : String)
  | indexError
deriving DecidableEq, Repr

/-- Whether an error is the source's schema `ValueError` (the spec's
`SchemaError` kind) as opposed to the positional `IndexError`. -/
def AnalysisError.isValueError : AnalysisError → Bool
  | .valueError _ => true
  | .indexError => false

/-- `data[data['DrCr'] == 'Cr']['balance'].sum()` (src/app.py:67): the sum
of the `balance` field over the rows whose direction flag is `Cr`. -/
def creditSum (rows : List Row) : ℚ :=
  ((rows.filter (fun r => r.drcr == "Cr")).map Row.balance).sum

/-- `data[data['DrCr'] == 'Db']['balance'].sum()` (src/app.py:68): the sum
of the `balance` field over the rows whose direction flag is `Db`. -/
def debitSum (rows : List Row) : ℚ :=
  ((rows.filter (fun r => r.drcr == "Db")).map Row.balance).sum

/-- `analyze_transactions` (src/app.py:65-72): if the `DrCr` and `balance`
columns are present, returns `(total_balance, incoming, outgoing)` where
`incoming` sums `balance` over rows with `DrCr = 'Cr'`, `outgoing` sums
`balance` over rows with `DrCr = 'Db'`, and `total_balance` is
`data['balance'].iloc[-1]`, the last row's balance (an `IndexError` when
there is no row); otherwise raises the schema `ValueError`. -/
def analyze_transactions (data : DataFrame) : Except AnalysisError (ℚ × ℚ × ℚ) :=
  if "DrCr" ∈ data.columns ∧ "balance" ∈ data.columns then
    match data.rows.getLast? with
    | some r => .ok (r.balance, creditSum data.rows, debitSum data.rows)
    | none => .error .indexError
  else
    .error (.valueError "Dataset must contain 'DrCr' and 'balance' columns.")

/-- Python dict read `d.get(k)` on a JSON object, modelled as an
insertion-ordered association list: the value at the first matching key. -/
def dictLookup {β : Type} (d : List (String × β)) (k : String) : Option β :=
  (d.find? (fun p => p.1 == k)).map Prod.snd

/-- Python membership test `k in d` on a JSON object. -/
def dictContains {β : Type} (d : List (String × β)) (k : String) : Bool :=
  d.any (fun p => p.1 == k)

/-- Python dict write `d[k] = v`: replaces the value of an existing key in
place, otherwise appends the new key at the end, as a Python dict does. -/
def dictSet {β : Type} (d : List (String × β)) (k : String) (v : β) :
    List (String × β) :=
  if dictContains d k then
    d.map (fun p => if p.1 == k then (k, v) else p)
  else
    d ++ [(k, v)]

/-- One element of a user's history in `transaction_logs`
(src/app.py:47-53): the raw rows, the three aggregates and the
timestamp string. -/
structure HistoryEntry where
  transactions : List Row
  total_balance : ℚ
  total_credit : ℚ
  total_debit : ℚ
  timestamp : String
deriving DecidableEq, Repr

/-- The persisted history document: a JSON object mapping each user id to
its ordered list of history entries. -/
abbrev TransactionLogs : Type := List (String × List HistoryEntry)

/-- `store_transaction_data` (src/app.py:38-62): runs
`analyze_transactions` on the dataset; on failure the exception is caught
and surfaced as an error message with the logs untouched; on success a new
`HistoryEntry` is appended to the user's history (created as `[]` first
when the user has none) and the document is persisted. The current
timestamp is passed in as `ts`. -/
def store_transaction_data (logs : TransactionLogs) (uid : String) (data : DataFrame)
    (ts : String) : TransactionLogs × Option AnalysisError :=
  match analyze_transactions data with
  | .error e => (logs, some e)
  | .ok (total_balance, incoming, outgoing) =>
      let prev := (dictLookup logs uid).getD []
      let entry : HistoryEntry :=
        ⟨data.rows, total_balance, incoming, outgoing, ts⟩
      (dictSet logs uid (prev ++ [entry]), none)

/-- A stored user profile (src/app.py:194): display name, email and the
stored password hash. -/
structure UserProfile where
  name : String
  email : String
  password : String
deriving DecidableEq, Repr

/-- The persisted profile document `user_data`: a JSON object mapping user
ids to profiles. -/
abbrev UserData : Type := List (String × UserProfile)

/-- Modelled from the spec: `hash_password` (src/app.py:31-32) calls the
external `bcrypt` library, which is not part of this repository. The spec
describes it as a salted one-way hash; it is modelled by its ideal
functionality, a deterministic injective encoding of the password (the
random salt is not modelled). -/
def hash_password (password : String) : String :=
  "bcrypt-salted-hash$" ++ password

/-- Modelled from the spec: `verify_password` (src/app.py:34-35) calls
`bcrypt.checkpw(entered, stored)`, which succeeds exactly when the stored
string is a hash of the entered password; modelled against the ideal
hash above. -/
def verify_password (stored entered : String) : Bool :=
  stored == hash_password entered

/-- Outcome of the Sign Up action. -/
inductive RegisterResult where
  | success
  | alreadyExists
deriving DecidableEq, Repr

/-- The Sign Up branch of `main` (src/app.py:189-196): if the identifier
is already a key of `user_data` the action fails with the already-exists
error; otherwise the profile is stored under the identifier with the
hashed password and the document is persisted. -/
def register (users : UserData) (uid name email password : String) :
    UserData × RegisterResult :=
  if dictContains users uid then
    (users, .alreadyExists)
  else
    (dictSet users uid ⟨name, email, hash_password password⟩, .success)

/-- The Login branch of `main` (src/app.py:202-207): succeeds with the
stored profile when the identifier is present and `verify_password`
accepts the entered password against the stored hash; otherwise the
invalid-credentials error is shown and no profile is returned. -/
def login (users : UserData) (uid password : String) : Option UserProfile :=
  match dictLookup users uid with
  | some profile =>
      if verify_password profile.password password then some profile else none
  | none => none

/-- The three outcomes of the recommendations page. -/
inductive Recommendation where
  | noData
  | reduceSpending
  | underControl
deriving DecidableEq, Repr

/-- `recommendations_page` (src/app.py:116-134): with no history for the
user (absent key or empty list) it reports that no data is available;
otherwise it reads the latest history entry and recommends reducing
spending exactly when `total_debit > total_balance * 0.5`, and reports
spending under control otherwise. -/
def recommendations_page (logs : TransactionLogs) (uid : String) : Recommendation :=
  match ((dictLookup logs uid).getD []).getLast? with
  | none => .noData
  | some latest =>
      if latest.total_debit > latest.total_balance * (0.5 : ℚ) then
        .reduceSpending
      else
        .underControl

/-! Concrete inputs used by the witnesses and counterexamples below. -/

/-- The spec's worked scenario: rows credit 100, debit 40, credit 160. -/
def scenarioFrame : DataFrame :=
  ⟨["DrCr", "balance"], [⟨"Cr", 100⟩, ⟨"Db", 40⟩, ⟨"Cr", 160⟩]⟩

/-- A well-formed dataset with a single credit row of negative balance. -/
def negFrame : DataFrame := ⟨["DrCr", "balance"], [⟨"Cr", -5⟩]⟩

/-- Both required columns present, no rows. -/
def emptyFrame : DataFrame := ⟨["DrCr", "balance"], []⟩

/-- A dataset missing the `DrCr` column. -/
def missingFrame : DataFrame := ⟨["balance"], []⟩

/-- A well-formed dataset with a single credit row of balance 1. -/
def oneRowFrame : DataFrame := ⟨["DrCr", "balance"], [⟨"Cr", 1⟩]⟩

/-! Dictionary lemmas: reads after a Python-dict write. -/

theorem dictContains_iff {β : Type} (d : List (String × β)) (k : String) :
    dictContains d k = (dictLookup d k).isSome := by
  induction d with
  | nil => rfl
  | cons p t ih =>
      cases hp : (p.1 == k) with
      | true => simp only [dictContains, dictLookup, List.any_cons, List.find?_cons, hp,
          Bool.true_or]; rfl
      | false =>
          simp only [dictContains, dictLookup, List.any_cons, List.find?_cons, hp,
            Bool.false_or] at ih ⊢
          exact ih

theorem dictLookup_map_replace_self {β : Type} (d : List (String × β)) (k : String) (v : β)
    (h : dictContains d k = true) :
    dictLookup (d.map (fun p => if p.1 == k then (k, v) else p)) k = some v := by
  induction d with
  | nil => simp [dictContains] at h
  | cons p t ih =>
      cases hp : (p.1 == k) with
      | true =>
          simp only [dictLookup, List.map_cons, hp, if_true, List.find?_cons,
            beq_self_eq_true]; rfl
      | false =>
          simp only [dictContains, List.any_cons, hp, Bool.false_or] at h
          simp only [dictLookup, List.map_cons, hp, if_false, List.find?_cons,
            Bool.false_eq_true] at ih ⊢
          exact ih h

theorem dictLookup_dictSet_self {β : Type} (d : List (String × β)) (k : String) (v : β) :
    dictLookup (dictSet d k v) k = some v := by
  cases h : dictContains d k with
  | true =>
      rw [dictSet, h, if_pos rfl]
      exact dictLookup_map_replace_self d k v h
  | false =>
      rw [dictSet, h]
      simp only [Bool.false_eq_true, if_false]
      induction d with
      | nil => simp [dictLookup, List.find?, beq_self_eq_true]
      | cons p t ih =>
          simp only [dictContains, List.any_cons, Bool.or_eq_false_iff] at h
          simp only [List.cons_append, dictLookup, List.find?_cons, h.1] at ih ⊢
          exact ih h.2

theorem dictLookup_map_replace_ne {β : Type} (d : List (String × β)) (k : String) (v : β)
    (u : String) (hu : u ≠ k) :
    dictLookup (d.map (fun p => if p.1 == k then (k, v) else p)) u = dictLookup d u := by
  induction d with
  | nil => rfl
  | cons p t ih =>
      cases hp : (p.1 == k) with
      | true =>
          have hpk : p.1 = k := by exact_mod_cast (beq_iff_eq.mp hp)
          have hku : (k == u) = false := by
            simp only [beq_eq_false_iff_ne]; exact fun hk => hu hk.symm
          have hpu : (p.1 == u) = false := by rw [hpk]; exact hku
          simp only [dictLookup, List.map_cons, hp, if_true, List.find?_cons, hku, hpu,
            Bool.false_eq_true] at ih ⊢
          exact ih
      | false =>
          cases hpu : (p.1 == u) with
          | true =>
              simp only [dictLookup, List.map_cons, hp, if_false, List.find?_cons, hpu,
                Bool.false_eq_true]
          | false =>
              simp only [dictLookup, List.map_cons, hp, if_false, List.find?_cons, hpu,
                Bool.false_eq_true] at ih ⊢
              exact ih

theorem dictLookup_dictSet_ne {β : Type} (d : List (String × β)) (k : String) (v : β)
    (u : String) (hu : u ≠ k) :
    dictLookup (dictSet d k v) u = dictLookup d u := by
  cases h : dictContains d k with
  | true =>
      rw [dictSet, h, if_pos rfl]
      exact dictLookup_map_replace_ne d k v u hu
  | false =>
      rw [dictSet, h]
      simp only [Bool.false_eq_true, if_false]
      have hku : (k == u) = false := by
        simp only [beq_eq_false_iff_ne]; exact fun hk => hu hk.symm
      induction d with
      | nil => simp [dictLookup, List.find?_cons, hku]
      | cons p t ih =>
          simp only [dictContains, List.any_cons, Bool.or_eq_false_iff] at h
          cases hpu : (p.1 == u) with
          | true =>
              simp only [List.cons_append, dictLookup, List.find?_cons, hpu]
          | false =>
              simp only [List.cons_append, dictLookup, List.find?_cons, hpu,
                Bool.false_eq_true] at ih ⊢
              exact ih h.2

/-! Lemmas about the aggregation routine and the modelled hash. -/

theorem hash_password_inj (p q : String) (h : hash_password p = hash_password q) : p = q := by
  unfold hash_password at h
  have h2 : "bcrypt-salted-hash$".data ++ p.data = "bcrypt-salted-hash$".data ++ q.data := by
    have h1 := congrArg String.data h
    simpa [String.data_append] using h1
  have h3 := List.append_cancel_left h2
  exact String.ext h3

theorem analyze_transactions_ok (d : DataFrame)
    (hc : "DrCr" ∈ d.columns) (hb : "balance" ∈ d.columns)
    (r : Row) (hlast : d.rows.getLast? = some r) :
    analyze_transactions d = .ok (r.balance, creditSum d.rows, debitSum d.rows) := by
  rw [analyze_transactions, if_pos ⟨hc, hb⟩, hlast]

theorem sum_filter_nonneg (p : Row → Bool) (rows : List Row)
    (h : ∀ r ∈ rows, 0 ≤ r.balance) :
    0 ≤ ((rows.filter p).map Row.balance).sum := by
  apply List.sum_nonneg
  intro x hx
  obtain ⟨r, hr, rfl⟩ := List.mem_map.mp hx
  exact h r (List.mem_of_mem_filter hr)

theorem creditSum_append_ne (rows : List Row) (r : Row) (hr : r.drcr ≠ "Cr") :
    creditSum (rows ++ [r]) = creditSum rows := by
  have hb : (r.drcr == "Cr") = false := by simp [beq_eq_false_iff_ne, hr]
  simp [creditSum, List.filter_append, List.filter, hb]

theorem debitSum_append_ne (rows : List Row) (r : Row) (hr : r.drcr ≠ "Db") :
    debitSum (rows ++ [r]) = debitSum rows := by
  have hb : (r.drcr == "Db") = false := by simp [beq_eq_false_iff_ne, hr]
  simp [debitSum, List.filter_append, List.filter, hb]

/-! The claims. -/

/-- C1: for every dataset with the `DrCr` and `balance` columns whose direction
values are the credit marker `Cr` or the debit marker `Db`, `analyze_transactions`
returns totalCredit equal to the sum of `balance` over credit rows, totalDebit
equal to the sum over debit rows, and totalBalance equal to the balance of the
last row in input order (not credit minus debit). -/
theorem aggregate_totals_spec (d : DataFrame)
    (hc : "DrCr" ∈ d.columns) (hb : "balance" ∈ d.columns)
    (hdir : ∀ r ∈ d.rows, r.drcr = "Cr" ∨ r.drcr = "Db")
    (last : Row) (hlast : d.rows.getLast? = some last) :
    analyze_transactions d = .ok (last.balance, creditSum d.rows, debitSum d.rows) :=
  analyze_transactions_ok d hc hb last hlast

/-- Witness for C1 at the spec's scenario: rows credit 100, debit 40,
credit 160 give totalCredit 260, totalDebit 40, totalBalance 160. -/
theorem aggregate_totals_spec_witness :
    analyze_transactions scenarioFrame = .ok (160, 260, 40) := by
  have h := aggregate_totals_spec scenarioFrame (by simp [scenarioFrame]) (by simp [scenarioFrame])
    (by intro r hr; simp [scenarioFrame] at hr; rcases hr with h | h | h <;> simp [h])
    ⟨"Cr", 160⟩ (by rfl)
  rw [h]
  simp [creditSum, debitSum, scenarioFrame, List.filter_cons]
  norm_num

/-- Counterexample to C2 as stated: a single credit row with the (numeric)
balance -5 satisfies the claim's hypotheses, yet totalCredit is -5 < 0. -/
theorem aggregate_negative_credit :
    analyze_transactions negFrame = .ok (-5, -5, 0) ∧ ¬((0 : ℚ) ≤ -5) := by
  constructor
  · have h := analyze_transactions_ok negFrame (by simp [negFrame]) (by simp [negFrame])
      ⟨"Cr", -5⟩ (by rfl)
    rw [h]
    simp [creditSum, debitSum, negFrame, List.filter_cons]
  · norm_num

/-- C2 as amended: for every non-empty row sequence with direction values in
{`Cr`, `Db`} and NONNEGATIVE numeric balances, the aggregation returns
totalCredit ≥ 0, totalDebit ≥ 0, and totalBalance equal to the balance of the
last row. -/
theorem aggregate_nonneg_of_nonneg (d : DataFrame)
    (hc : "DrCr" ∈ d.columns) (hb : "balance" ∈ d.columns)
    (hdir : ∀ r ∈ d.rows, r.drcr = "Cr" ∨ r.drcr = "Db")
    (hpos : ∀ r ∈ d.rows, 0 ≤ r.balance)
    (last : Row) (hlast : d.rows.getLast? = some last) :
    analyze_transactions d = .ok (last.balance, creditSum d.rows, debitSum d.rows) ∧
    0 ≤ creditSum d.rows ∧ 0 ≤ debitSum d.rows :=
  ⟨analyze_transactions_ok d hc hb last hlast,
   sum_filter_nonneg _ d.rows hpos, sum_filter_nonneg _ d.rows hpos⟩

/-- Witness for the amended C2 at the spec's scenario. -/
theorem aggregate_nonneg_of_nonneg_witness :
    analyze_transactions scenarioFrame = .ok (160, 260, 40) ∧
    (0 : ℚ) ≤ 260 ∧ (0 : ℚ) ≤ 40 := by
  have h := aggregate_nonneg_of_nonneg scenarioFrame (by simp [scenarioFrame])
    (by simp [scenarioFrame])
    (by intro r hr; simp [scenarioFrame] at hr; rcases hr with h | h | h <;> simp [h])
    (by intro r hr; simp [scenarioFrame] at hr; rcases hr with h | h | h <;> simp [h])
    ⟨"Cr", 160⟩ (by rfl)
  refine ⟨?_, by norm_num, by norm_num⟩
  rw [h.1]
  simp [creditSum, debitSum, scenarioFrame, List.filter_cons]
  norm_num

/-- C3: on the empty row sequence with both required columns present, the code
does NOT raise the schema error the claim requires: `data['balance'].iloc[-1]`
raises an `IndexError`, which is not a `ValueError`/SchemaError at all. This
theorem evaluates the code at the claim's failing input. -/
theorem analyze_empty_raises_indexError :
    analyze_transactions emptyFrame = .error .indexError ∧
    AnalysisError.isValueError .indexError = false := ⟨rfl, rfl⟩

/-- C4: whenever aggregation fails, `store_transaction_data` catches the error
before constructing any entry and leaves the whole history document unchanged
(atomicity: state unchanged on error, for every user and every error). -/
theorem store_error_leaves_logs (logs : TransactionLogs) (uid : String) (d : DataFrame)
    (ts : String) (e : AnalysisError) (h : analyze_transactions d = .error e) :
    store_transaction_data logs uid d ts = (logs, some e) := by
  rw [store_transaction_data, h]

/-- Witness for C4 at a dataset missing the `DrCr` column: the logs stay `[]`. -/
theorem store_error_leaves_logs_witness :
    store_transaction_data [] "alice" missingFrame "2024-01-01" =
      ([], some (.valueError "Dataset must contain 'DrCr' and 'balance' columns.")) :=
  store_error_leaves_logs [] "alice" missingFrame "2024-01-01" _ rfl

/-- C5: registering a fresh identifier succeeds and stores the profile keyed by
the identifier with the hashed password; a second registration of the same
identifier fails with AlreadyExists and leaves the store unchanged, so the
stored profile is still the first call's; and in every state where the
identifier is present, register fails with AlreadyExists. -/
theorem register_spec (users : UserData) (uid n1 e1 p1 n2 e2 p2 : String)
    (hfresh : dictContains users uid = false) :
    (register users uid n1 e1 p1).2 = .success ∧
    dictLookup (register users uid n1 e1 p1).1 uid = some ⟨n1, e1, hash_password p1⟩ ∧
    register (register users uid n1 e1 p1).1 uid n2 e2 p2 =
      ((register users uid n1 e1 p1).1, .alreadyExists) ∧
    ∀ (users2 : UserData) (n3 e3 p3 : String), dictContains users2 uid = true →
      register users2 uid n3 e3 p3 = (users2, .alreadyExists) := by
  have hreg : register users uid n1 e1 p1 =
      (dictSet users uid ⟨n1, e1, hash_password p1⟩, .success) := by
    rw [register, hfresh]
    simp
  have hlook : dictLookup (dictSet users uid ⟨n1, e1, hash_password p1⟩) uid =
      some ⟨n1, e1, hash_password p1⟩ := dictLookup_dictSet_self _ _ _
  have hcont : dictContains (dictSet users uid ⟨n1, e1, hash_password p1⟩) uid = true := by
    rw [dictContains_iff, hlook]
    rfl
  refine ⟨by rw [hreg], by rw [hreg]; exact hlook, ?_, ?_⟩
  · rw [hreg]
    rw [register, hcont]
    simp
  · intro users2 n3 e3 p3 h2
    rw [register, h2]
    simp

/-- Witness for C5: registering "u" twice from the empty store. -/
theorem register_spec_witness :
    (register [] "u" "Ada" "a@x" "pw1").2 = .success ∧
    dictLookup (register [] "u" "Ada" "a@x" "pw1").1 "u" =
      some ⟨"Ada", "a@x", hash_password "pw1"⟩ ∧
    register (register [] "u" "Ada" "a@x" "pw1").1 "u" "Bob" "b@x" "pw2" =
      ((register [] "u" "Ada" "a@x" "pw1").1, .alreadyExists) ∧
    ∀ (users2 : UserData) (n3 e3 p3 : String), dictContains users2 "u" = true →
      register users2 "u" n3 e3 p3 = (users2, .alreadyExists) :=
  register_spec [] "u" "Ada" "a@x" "pw1" "Bob" "b@x" "pw2" rfl

/-- C6: login fails for an unknown identifier, and after registering an
identifier with password `p`, login with password `q` returns the stored
profile exactly when `q = p` and fails otherwise (under the ideal model of
the external bcrypt hash). -/
theorem login_spec (users : UserData) (uid n e p q : String)
    (hfresh : dictContains users uid = false) :
    login users uid q = none ∧
    login (register users uid n e p).1 uid q =
      (if q = p then some ⟨n, e, hash_password p⟩ else none) := by
  constructor
  · have hnone : dictLookup users uid = none := by
      have h1 := dictContains_iff users uid
      rw [hfresh] at h1
      exact Option.not_isSome_iff_eq_none.mp (by rw [← h1]; simp)
    rw [login, hnone]
  · have hreg : (register users uid n e p).1 = dictSet users uid ⟨n, e, hash_password p⟩ := by
      rw [register, hfresh]
      simp
    rw [hreg, login, dictLookup_dictSet_self]
    by_cases hq : q = p
    · subst hq
      rw [if_pos rfl]
      simp [verify_password]
    · rw [if_neg hq]
      have hne : (hash_password p == hash_password q) = false := by
        rw [beq_eq_false_iff_ne]
        intro hcontra
        exact hq (hash_password_inj q p hcontra.symm)
      simp [verify_password, hne]

/-- Witness for C6: unknown user fails; the registered password logs in. -/
theorem login_spec_witness :
    login [] "u" "pw" = none ∧
    login (register [] "u" "Ada" "a@x" "pw").1 "u" "pw" =
      some ⟨"Ada", "a@x", hash_password "pw"⟩ := by
  have h := login_spec [] "u" "Ada" "a@x" "pw" "pw" rfl
  exact ⟨h.1, by rw [h.2, if_pos rfl]⟩

/-- C7: `store_transaction_data` is append-only. Starting with no history,
two successful uploads leave a history of length two whose first entry is the
first call's entry unchanged; and after any call, every user's previous
history is a prefix of the new one, so no existing entry is ever edited or
removed. -/
theorem store_append_only (logs : TransactionLogs) (uid : String)
    (d1 d2 : DataFrame) (ts1 ts2 : String) (v1 v2 : ℚ × ℚ × ℚ)
    (h0 : dictLookup logs uid = none)
    (h1 : analyze_transactions d1 = .ok v1) (h2 : analyze_transactions d2 = .ok v2) :
    dictLookup (store_transaction_data logs uid d1 ts1).1 uid =
      some [⟨d1.rows, v1.1, v1.2.1, v1.2.2, ts1⟩] ∧
    dictLookup
        (store_transaction_data (store_transaction_data logs uid d1 ts1).1 uid d2 ts2).1 uid =
      some [⟨d1.rows, v1.1, v1.2.1, v1.2.2, ts1⟩, ⟨d2.rows, v2.1, v2.2.1, v2.2.2, ts2⟩] ∧
    ∀ (logs2 : TransactionLogs) (u uid2 ts : String) (d : DataFrame),
      ((dictLookup logs2 u).getD []) <+:
        ((dictLookup (store_transaction_data logs2 uid2 d ts).1 u).getD []) := by
  obtain ⟨tb1, inc1, out1⟩ := v1
  obtain ⟨tb2, inc2, out2⟩ := v2
  have e1 : store_transaction_data logs uid d1 ts1 =
      (dictSet logs uid [⟨d1.rows, tb1, inc1, out1, ts1⟩], none) := by
    rw [store_transaction_data, h1, h0]
    rfl
  have l1 : dictLookup (store_transaction_data logs uid d1 ts1).1 uid =
      some [⟨d1.rows, tb1, inc1, out1, ts1⟩] := by
    rw [e1]
    exact dictLookup_dictSet_self _ _ _
  refine ⟨l1, ?_, ?_⟩
  · rw [store_transaction_data, h2, l1]
    exact dictLookup_dictSet_self _ _ _
  · intro logs2 u uid2 ts d
    cases ha : analyze_transactions d with
    | error e => rw [store_transaction_data, ha]
    | ok v =>
        obtain ⟨tb, inc, outg⟩ := v
        rw [store_transaction_data, ha]
        by_cases hu : u = uid2
        · subst hu
          rw [dictLookup_dictSet_self]
          exact List.prefix_append _ _
        · rw [dictLookup_dictSet_ne _ _ _ _ hu]

/-- Witness for C7: two uploads of a one-credit-row dataset for user "u". -/
theorem store_append_only_witness :
    dictLookup (store_transaction_data [] "u" oneRowFrame "t1").1 "u" =
      some [⟨[⟨"Cr", 1⟩], 1, 1, 0, "t1"⟩] ∧
    dictLookup
        (store_transaction_data (store_transaction_data [] "u" oneRowFrame "t1").1
          "u" oneRowFrame "t2").1 "u" =
      some [⟨[⟨"Cr", 1⟩], 1, 1, 0, "t1"⟩, ⟨[⟨"Cr", 1⟩], 1, 1, 0, "t2"⟩] ∧
    ∀ (logs2 : TransactionLogs) (u uid2 ts : String) (d : DataFrame),
      ((dictLookup logs2 u).getD []) <+:
        ((dictLookup (store_transaction_data logs2 uid2 d ts).1 u).getD []) := by
  have ha : analyze_transactions oneRowFrame = .ok (1, 1, 0) := by
    have h := analyze_transactions_ok oneRowFrame (by simp [oneRowFrame])
      (by simp [oneRowFrame]) ⟨"Cr", 1⟩ (by rfl)
    rw [h]
    simp [creditSum, debitSum, oneRowFrame, List.filter_cons]
  exact store_append_only [] "u" oneRowFrame oneRowFrame "t1" "t2" (1, 1, 0) (1, 1, 0)
    rfl ha ha

/-- C8: the recommendation over a user's most recent history entry is
"reduce spending" exactly when totalDebit > 0.5 × totalBalance and
"spending under control" otherwise; a user with no history gets the distinct
no-data result. -/
theorem recommendations_page_spec (logs : TransactionLogs) (uid : String) :
    (((dictLookup logs uid).getD []) = [] → recommendations_page logs uid = .noData) ∧
    ∀ latest : HistoryEntry, ((dictLookup logs uid).getD []).getLast? = some latest →
      recommendations_page logs uid =
        (if latest.total_debit > latest.total_balance * (0.5 : ℚ) then
          Recommendation.reduceSpending
        else Recommendation.underControl) := by
  constructor
  · intro h
    rw [recommendations_page, h]
    rfl
  · intro latest h
    rw [recommendations_page, h]

/-- Witness for C8 at the spec's scenarios: totalDebit 60 with totalBalance
100 gives "reduce spending"; totalDebit 40 gives "spending under control". -/
theorem recommendations_page_spec_witness :
    recommendations_page [("u", [⟨[], 100, 260, 60, "t"⟩])] "u" = .reduceSpending ∧
    recommendations_page [("v", [⟨[], 100, 260, 40, "t"⟩])] "v" = .underControl := by
  have h1 := (recommendations_page_spec [("u", [⟨[], 100, 260, 60, "t"⟩])] "u").2
    ⟨[], 100, 260, 60, "t"⟩ rfl
  have h2 := (recommendations_page_spec [("v", [⟨[], 100, 260, 40, "t"⟩])] "v").2
    ⟨[], 100, 260, 40, "t"⟩ rfl
  constructor
  · rw [h1, if_pos (by norm_num)]
  · rw [h2, if_neg (by norm_num)]

/-- C9: when the `DrCr` column or the `balance` column is absent,
`analyze_transactions` fails with the schema `ValueError` carrying the
source's message (the spec renders it abstractly as "dataset must contain
direction and balance columns"), and the failure is terminal: the history
document is left unchanged by the triggering upload. -/
theorem analyze_missing_columns (d : DataFrame)
    (h : "DrCr" ∉ d.columns ∨ "balance" ∉ d.columns) :
    analyze_transactions d =
      .error (.valueError "Dataset must contain 'DrCr' and 'balance' columns.") ∧
    ∀ (logs : TransactionLogs) (uid ts : String),
      store_transaction_data logs uid d ts =
        (logs, some (.valueError "Dataset must contain 'DrCr' and 'balance' columns.")) := by
  have ha : analyze_transactions d =
      .error (.valueError "Dataset must contain 'DrCr' and 'balance' columns.") := by
    rw [analyze_transactions, if_neg]
    rcases h with h | h
    · exact fun hcontra => h hcontra.1
    · exact fun hcontra => h hcontra.2
  refine ⟨ha, ?_⟩
  intro logs uid ts
  rw [store_transaction_data, ha]

/-- Witness for C9 at a dataset whose only column is `balance`. -/
theorem analyze_missing_columns_witness :
    analyze_transactions missingFrame =
      .error (.valueError "Dataset must contain 'DrCr' and 'balance' columns.") ∧
    ∀ (logs : TransactionLogs) (uid ts : String),
      store_transaction_data logs uid missingFrame ts =
        (logs, some (.valueError "Dataset must contain 'DrCr' and 'balance' columns.")) :=
  analyze_missing_columns missingFrame (Or.inl (by simp [missingFrame]))

/-- C10: a row whose direction value is neither `Cr` nor `Db` contributes to
neither totalCredit nor totalDebit and causes no error; placed last, its
balance still becomes totalBalance. -/
theorem analyze_ignores_unknown_direction (cols : List String) (rows : List Row)
    (r : Row) (hc : "DrCr" ∈ cols) (hb : "balance" ∈ cols)
    (hcr : r.drcr ≠ "Cr") (hdb : r.drcr ≠ "Db") :
    analyze_transactions ⟨cols, rows ++ [r]⟩ =
      .ok (r.balance, creditSum rows, debitSum rows) := by
  have h := analyze_transactions_ok ⟨cols, rows ++ [r]⟩ hc hb r (List.getLast?_concat rows)
  rw [h, creditSum_append_ne rows r hcr, debitSum_append_ne rows r hdb]

/-- Witness for C10: a trailing row with direction "xx" and balance 7 after a
credit row of 5 yields totalBalance 7, totalCredit 5, totalDebit 0. -/
theorem analyze_ignores_unknown_direction_witness :
    analyze_transactions ⟨["DrCr", "balance"], [⟨"Cr", 5⟩] ++ [⟨"xx", 7⟩]⟩ =
      .ok (7, 5, 0) := by
  have h := analyze_ignores_unknown_direction ["DrCr", "balance"] [⟨"Cr", 5⟩] ⟨"xx", 7⟩
    (by simp) (by simp) (by simp) (by simp)
  rw [h]
  simp [creditSum, debitSum, List.filter_cons]

end FinApp
